import Mathlib

/-!
Shallow embedding of the `state.CachingAuthClient` read-through cache
(file `part_001`, package `state`) and of the ansible inventory formatter
(`lib/ansible/inventory.go`) of the halfa/teleport repository.

Modelling conventions:
* Go `time.Time` and `time.Duration` are natural numbers counting
  nanoseconds; `time.Second * 10` is `10 * 1000000000`.  The zero value of
  `time.Time` (the initial `lastErrorTime`) is `0`, and `time.Now()` is an
  explicit `now` argument to every method that consults the clock.
* The upstream `auth.AccessPoint` is external to the repository; each call
  into it is modelled by an `AccessPoint` record of responses supplied to
  the method being executed, so a sequence of calls may see different
  upstream answers.  A fallible Go call returning `(T, error)` becomes
  `Except Err T`; a Go call returning only `error` becomes `Option Err`
  (`none` is the nil error).
* Go maps keyed by strings become association lists with `mapInsert`
  (assignment, replacing an existing key) and `mapLookup`.
-/

namespace Teleport

abbrev Err := String

/-- `services.Namespace`; this code reads only `Metadata.Name`. -/
structure Namespace where
  name : String
deriving DecidableEq, Repr

/-- `services.Server`; the fields this repository reads are the label map
(`GetAllLabels`), the address (`GetAddr`) and the hostname. -/
structure Server where
  labels : List (String × String)
  addr : String
  hostname : String
deriving DecidableEq, Repr

/-- `services.User`, opaque to this repository. -/
abbrev User := String

/-- `*services.CertAuthority`, opaque to this repository. -/
abbrev CertAuthority := String

/-- `services.CertAuthType`, a string type with constants `UserCA`/`HostCA`. -/
abbrev CertAuthType := String

def UserCA : CertAuthType := "user"

def HostCA : CertAuthType := "host"

/-- The responses of the upstream `auth.AccessPoint` for the calls the
caching client can make. -/
structure AccessPoint where
  getDomainName : Except Err String
  getNamespaces : Except Err (List Namespace)
  getNodes : String → Except Err (List Server)
  getProxies : Except Err (List Server)
  getUsers : Except Err (List User)
  getCertAuthorities : CertAuthType → Bool → Except Err (List CertAuthority)
  upsertNode : Server → Nat → Option Err
  upsertProxy : Server → Nat → Option Err

/-- Go map assignment `m[k] = v`: replace an existing binding, otherwise add one. -/
def mapInsert {β : Type} (m : List (String × β)) (k : String) (v : β) :
    List (String × β) :=
  match m with
  | [] => [(k, v)]
  | (k', v') :: rest =>
      if k' = k then (k, v) :: rest else (k', v') :: mapInsert rest k v

/-- Go map read `m[k]` (as an `Option`; a missing key reads as the zero value). -/
def mapLookup {β : Type} (m : List (String × β)) (k : String) : Option β :=
  match m with
  | [] => none
  | (k', v') :: rest => if k' = k then some v' else mapLookup rest k

/-- `backoffDuration = time.Second * 10`, in nanoseconds. -/
def backoffDuration : Nat := 10 * 1000000000

/-- The mutable state of a `CachingAuthClient`: the failure timestamp and
the cached slot for each query category. -/
structure CachingAuthClient where
  lastErrorTime : Nat
  domainName : String
  namespaces : List Namespace
  nodes : List (String × List Server)
  proxies : List Server
  users : List User
  userCAs : List CertAuthority
  hostCAs : List CertAuthority
deriving DecidableEq, Repr

/-- The backoff helper `try`.  The Go closure mutates `cs` and its captured
locals and returns an error; here it is a function from the pair
(client state, locals) to the new pair and the returned error, with `init`
the locals' values at the point `try` is called.  If the last recorded
error is less than `backoffDuration` old the closure is not invoked;
otherwise it runs, and on a non-nil error the current time is recorded. -/
def tryCall {α : Type} (cs : CachingAuthClient) (now : Nat) (init : α)
    (f : CachingAuthClient × α → (CachingAuthClient × α) × Option Err) :
    CachingAuthClient × α :=
  let tooSoon := decide (now < cs.lastErrorTime + backoffDuration)
  if tooSoon then (cs, init)
  else
    match f (cs, init) with
    | ((cs', a), some _) => ({ cs' with lastErrorTime := now }, a)
    | ((cs', a), none) => (cs', a)

/-- Wraps a `tryCall` closure so that an extra boolean local records whether
the closure (the upstream operation) was actually invoked. -/
def markCalled {α : Type}
    (f : CachingAuthClient × α → (CachingAuthClient × α) × Option Err) :
    CachingAuthClient × (α × Bool) → (CachingAuthClient × (α × Bool)) × Option Err :=
  fun p =>
    match f (p.1, p.2.1) with
    | ((cs', a), e) => ((cs', (a, true)), e)

/-- `(*CachingAuthClient).GetDomainName`. -/
def CachingAuthClient.GetDomainName (cs : CachingAuthClient) (ap : AccessPoint)
    (now : Nat) : CachingAuthClient × String × Option Err :=
  let r := tryCall cs now () (fun p =>
    match ap.getDomainName with
    | .ok dn => (({ p.1 with domainName := dn }, ()), none)
    | .error e => ((p.1, ()), some e))
  (r.1, r.1.domainName, none)

/-- `(*CachingAuthClient).GetNamespaces`. -/
def CachingAuthClient.GetNamespaces (cs : CachingAuthClient) (ap : AccessPoint)
    (now : Nat) : CachingAuthClient × List Namespace × Option Err :=
  let r := tryCall cs now () (fun p =>
    match ap.getNamespaces with
    | .ok nss => (({ p.1 with namespaces := nss }, ()), none)
    | .error e => ((p.1, ()), some e))
  (r.1, r.1.namespaces, none)

/-- `(*CachingAuthClient).GetNodes`.  The locals `nsNodes` (initially nil)
and the returned value are threaded through `tryCall`; the method returns
the local `nsNodes`, not the cached slot. -/
def CachingAuthClient.GetNodes (cs : CachingAuthClient) (ap : AccessPoint)
    (now : Nat) (ns : String) : CachingAuthClient × List Server × Option Err :=
  let r := tryCall cs now ([] : List Server) (fun p =>
    match ap.getNodes ns with
    | .ok v => (({ p.1 with nodes := mapInsert p.1.nodes ns v }, v), none)
    | .error e => ((p.1, []), some e))
  (r.1, r.2, none)

/-- `(*CachingAuthClient).GetProxies`. -/
def CachingAuthClient.GetProxies (cs : CachingAuthClient) (ap : AccessPoint)
    (now : Nat) : CachingAuthClient × List Server × Option Err :=
  let r := tryCall cs now () (fun p =>
    match ap.getProxies with
    | .ok v => (({ p.1 with proxies := v }, ()), none)
    | .error e => ((p.1, ()), some e))
  (r.1, r.1.proxies, none)

/-- `(*CachingAuthClient).GetCertAuthorities`. -/
def CachingAuthClient.GetCertAuthorities (cs : CachingAuthClient)
    (ap : AccessPoint) (now : Nat) (ct : CertAuthType) (loadKeys : Bool) :
    CachingAuthClient × List CertAuthority × Option Err :=
  let r := tryCall cs now () (fun p =>
    match ap.getCertAuthorities ct loadKeys with
    | .ok retval =>
        ((if ct = UserCA then { p.1 with userCAs := retval }
          else { p.1 with hostCAs := retval }, ()), none)
    | .error e => ((p.1, ()), some e))
  (r.1, (if ct = UserCA then r.1.userCAs else r.1.hostCAs), none)

/-- `(*CachingAuthClient).GetUsers`. -/
def CachingAuthClient.GetUsers (cs : CachingAuthClient) (ap : AccessPoint)
    (now : Nat) : CachingAuthClient × List User × Option Err :=
  let r := tryCall cs now () (fun p =>
    match ap.getUsers with
    | .ok v => (({ p.1 with users := v }, ()), none)
    | .error e => ((p.1, ()), some e))
  (r.1, r.1.users, none)

/-- `(*CachingAuthClient).UpsertNode`: a straight pass-through to the upstream. -/
def CachingAuthClient.UpsertNode (cs : CachingAuthClient) (ap : AccessPoint)
    (s : Server) (ttl : Nat) : CachingAuthClient × Option Err :=
  (cs, ap.upsertNode s ttl)

/-- `(*CachingAuthClient).UpsertProxy`: a straight pass-through to the upstream. -/
def CachingAuthClient.UpsertProxy (cs : CachingAuthClient) (ap : AccessPoint)
    (s : Server) (ttl : Nat) : CachingAuthClient × Option Err :=
  (cs, ap.upsertProxy s ttl)

/-- The constructor's loop over `namespaces` filling the `nodes` map from
`ap.GetNodes(ns.Metadata.Name)`, stopping at the first error. -/
def loadNodes (ap : AccessPoint) (acc : List (String × List Server)) :
    List Namespace → Except Err (List (String × List Server))
  | [] => .ok acc
  | ns :: rest =>
      match ap.getNodes ns.name with
      | .error e => .error e
      | .ok v => loadNodes ap (mapInsert acc ns.name v) rest

/-- `NewCachingAuthClient`: queries every category from the upstream,
failing on the first error.  The final struct literal of the source sets
`domainName`, `nodes`, `proxies`, `users`, `userCAs` and `hostCAs` but
omits the `namespaces` field, which therefore keeps Go's zero value (nil);
`lastErrorTime` is likewise the zero time. -/
def NewCachingAuthClient (ap : AccessPoint) : Except Err CachingAuthClient :=
  match ap.getDomainName with
  | .error e => .error e
  | .ok domainName =>
    match ap.getNamespaces with
    | .error e => .error e
    | .ok namespaces =>
      match loadNodes ap [] namespaces with
      | .error e => .error e
      | .ok nodes =>
        match ap.getProxies with
        | .error e => .error e
        | .ok proxies =>
          match ap.getUsers with
          | .error e => .error e
          | .ok users =>
            match ap.getCertAuthorities UserCA false with
            | .error e => .error e
            | .ok userCAs =>
              match ap.getCertAuthorities HostCA false with
              | .error e => .error e
              | .ok hostCAs =>
                .ok { lastErrorTime := 0
                      domainName := domainName
                      namespaces := []
                      nodes := nodes
                      proxies := proxies
                      users := users
                      userCAs := userCAs
                      hostCAs := hostCAs }

/-- The characters before the first colon, i.e. Go's
`strings.Split(nodeAddr, ":")[0]` on the underlying character list. -/
def takeUntilColon : List Char → List Char
  | [] => []
  | c :: rest => if c = ':' then [] else c :: takeUntilColon rest

/-- `trimTrailingPort` (`lib/ansible/inventory.go`): everything before the
first colon of the address. -/
def trimTrailingPort (nodeAddr : String) : String :=
  ⟨takeUntilColon nodeAddr.data⟩

/-- Go `append(labelBuffer[groupName], IP)` followed by the map assignment:
append to the group's host list, creating the group if absent. -/
def bufAppend (m : List (String × List String)) (k v : String) :
    List (String × List String) :=
  match m with
  | [] => [(k, [v])]
  | (k', vs) :: rest =>
      if k' = k then (k, vs ++ [v]) :: rest else (k', vs) :: bufAppend rest k v

/-- `bufferLabels` (`lib/ansible/inventory.go`): for each node in input
order and each of its labels, append the node's port-stripped address to
the group named `label-value`. -/
def bufferLabels (nodes : List Server) : List (String × List String) :=
  nodes.foldl (fun buf n =>
    n.labels.foldl (fun buf lv =>
      bufAppend buf (lv.1 ++ "-" ++ lv.2) (trimTrailingPort n.addr)) buf) []

/-- The three-server fixture of `inventory_test.go`. -/
def serverFixture : List Server :=
  [ { labels := [("os", "gentoo")], addr := "198.145.29.83",
      hostname := "kernel.org" },
    { labels := [("os", "coreos"), ("role", "database")], addr := "11.1.1.1",
      hostname := "coreos.local" },
    { labels := [("os", "plan9"), ("role", "database")], addr := "8.8.4.4",
      hostname := "g00gle.com" } ]

/-- `true` exactly when the upstream call returned a non-nil error. -/
def isErr {α : Type} : Except Err α → Bool
  | .error _ => true
  | .ok _ => false

/-- A cached server used by the concrete evaluations. -/
def srvC1 : Server :=
  { labels := [], addr := "10.0.0.1:3022", hostname := "node-1" }

/-- A client state whose nodes cache holds `srvC1` under namespace
`default`, with a failure recorded at time 100. -/
def csC1 : CachingAuthClient :=
  { lastErrorTime := 100, domainName := "example.com",
    namespaces := [⟨"default"⟩], nodes := [("default", [srvC1])],
    proxies := [], users := [], userCAs := [], hostCAs := [] }

/-- An upstream that would answer every query successfully. -/
def apC1 : AccessPoint :=
  { getDomainName := .ok "example.com", getNamespaces := .ok [⟨"default"⟩],
    getNodes := fun _ => .ok [srvC1], getProxies := .ok [],
    getUsers := .ok [], getCertAuthorities := fun _ _ => .ok [],
    upsertNode := fun _ _ => none, upsertProxy := fun _ _ => none }

/-- An upstream whose every initial query succeeds and whose namespace
list is non-empty. -/
def apC2 : AccessPoint :=
  { getDomainName := .ok "example.com", getNamespaces := .ok [⟨"default"⟩],
    getNodes := fun _ => .ok [], getProxies := .ok [], getUsers := .ok [],
    getCertAuthorities := fun _ _ => .ok [], upsertNode := fun _ _ => none,
    upsertProxy := fun _ _ => none }

/-- An upstream closure that changes nothing and returns a nil error. -/
def idOp : CachingAuthClient × Nat → (CachingAuthClient × Nat) × Option Err :=
  fun p => (p, none)

/-- A client state with a failure recorded at time 5. -/
def csGate : CachingAuthClient :=
  { lastErrorTime := 5, domainName := "example.com", namespaces := [],
    nodes := [], proxies := [], users := [], userCAs := [], hostCAs := [] }

/-- An upstream whose every query succeeds, with recognisable values. -/
def apC5 : AccessPoint :=
  { getDomainName := .ok "fresh.example.com",
    getNamespaces := .ok [⟨"default"⟩], getNodes := fun _ => .ok [srvC1],
    getProxies := .ok [srvC1], getUsers := .ok ["alice"],
    getCertAuthorities := fun _ _ => .ok ["ca1"],
    upsertNode := fun _ _ => none, upsertProxy := fun _ _ => none }

/-- An upstream failing only on the user listing. -/
def apC6 : AccessPoint :=
  { getDomainName := .ok "example.com", getNamespaces := .ok [⟨"default"⟩],
    getNodes := fun _ => .ok [], getProxies := .ok [],
    getUsers := .error "backend unavailable",
    getCertAuthorities := fun _ _ => .ok [], upsertNode := fun _ _ => none,
    upsertProxy := fun _ _ => none }

/-- A client state with distinct values in the two CA slots. -/
def csC10 : CachingAuthClient :=
  { lastErrorTime := 0, domainName := "example.com", namespaces := [],
    nodes := [], proxies := [], users := [], userCAs := ["u1"],
    hostCAs := ["h1"] }

/-- An upstream answering every CA query with a fresh list. -/
def apC10 : AccessPoint :=
  { getDomainName := .ok "example.com", getNamespaces := .ok [],
    getNodes := fun _ => .ok [], getProxies := .ok [], getUsers := .ok [],
    getCertAuthorities := fun _ _ => .ok ["fresh"],
    upsertNode := fun _ _ => none, upsertProxy := fun _ _ => none }

theorem mapLookup_mapInsert_self {β : Type} (m : List (String × β))
    (k : String) (v : β) : mapLookup (mapInsert m k v) k = some v := by
  induction m with
  | nil => simp [mapInsert, mapLookup]
  | cons hd tl ih =>
    obtain ⟨k', v'⟩ := hd
    by_cases h : k' = k
    · simp [mapInsert, mapLookup, h]
    · simp [mapInsert, mapLookup, h, ih]

/-- Characterisation of `GetCertAuthorities` by cases on the gate and the
upstream answer. -/
theorem getCertAuthorities_cases (cs : CachingAuthClient) (ap : AccessPoint)
    (now : Nat) (ct : CertAuthType) (lk : Bool) :
    cs.GetCertAuthorities ap now ct lk =
      (if now < cs.lastErrorTime + backoffDuration then
        (cs, (if ct = UserCA then cs.userCAs else cs.hostCAs), none)
      else
        match ap.getCertAuthorities ct lk with
        | .ok retval =>
            if ct = UserCA then ({ cs with userCAs := retval }, retval, none)
            else ({ cs with hostCAs := retval }, retval, none)
        | .error _ =>
            ({ cs with lastErrorTime := now },
             (if ct = UserCA then cs.userCAs else cs.hostCAs), none)) := by
  unfold CachingAuthClient.GetCertAuthorities tryCall
  by_cases hg : now < cs.lastErrorTime + backoffDuration
  · simp [hg]
  · cases hc : ap.getCertAuthorities ct lk with
    | ok retval =>
      by_cases hct : ct = UserCA <;> simp [hg, hc, hct]
    | error e =>
      by_cases hct : ct = UserCA <;> simp [hg, hc, hct]

/-- C7: refreshing one certificate-authority kind never touches the other
kind's slot, and each kind's call returns its own slot: a `UserCA` call
leaves `hostCAs` unchanged and returns the (possibly refreshed) `userCAs`
slot; a `HostCA` call leaves `userCAs` unchanged and returns the (possibly
refreshed) `hostCAs` slot. -/
theorem cert_authority_slots_independent (cs : CachingAuthClient)
    (ap : AccessPoint) (now : Nat) (lk : Bool) :
    ((cs.GetCertAuthorities ap now UserCA lk).1.hostCAs = cs.hostCAs
      ∧ (cs.GetCertAuthorities ap now UserCA lk).2.1
          = (cs.GetCertAuthorities ap now UserCA lk).1.userCAs)
  ∧ ((cs.GetCertAuthorities ap now HostCA lk).1.userCAs = cs.userCAs
      ∧ (cs.GetCertAuthorities ap now HostCA lk).2.1
          = (cs.GetCertAuthorities ap now HostCA lk).1.hostCAs) := by
  have hne : HostCA = UserCA ↔ False := by simp [HostCA, UserCA]
  rw [getCertAuthorities_cases, getCertAuthorities_cases]
  by_cases hg : now < cs.lastErrorTime + backoffDuration
  · simp [hg, hne]
  · cases hu : ap.getCertAuthorities UserCA lk with
    | ok v =>
      cases hh : ap.getCertAuthorities HostCA lk with
      | ok w => simp [hg, hu, hh, UserCA, HostCA]
      | error e => simp [hg, hu, hh, UserCA, HostCA]
    | error e =>
      cases hh : ap.getCertAuthorities HostCA lk with
      | ok w => simp [hg, hu, hh, UserCA, HostCA]
      | error e' => simp [hg, hu, hh, UserCA, HostCA]

/-- C10: for every authority kind other than `UserCA` — not only `HostCA` —
`GetCertAuthorities` leaves the user-CA slot unchanged, returns the host-CA
slot, and on a permitted successful refresh overwrites the host-CA slot
with the upstream's value. -/
theorem non_user_kind_uses_host_slot (cs : CachingAuthClient)
    (ap : AccessPoint) (now : Nat) (ct : CertAuthType) (lk : Bool)
    (hct : ct ≠ UserCA) :
    (cs.GetCertAuthorities ap now ct lk).1.userCAs = cs.userCAs
  ∧ (cs.GetCertAuthorities ap now ct lk).2.1
      = (cs.GetCertAuthorities ap now ct lk).1.hostCAs
  ∧ (cs.lastErrorTime + backoffDuration ≤ now →
      ∀ v, ap.getCertAuthorities ct lk = .ok v →
        (cs.GetCertAuthorities ap now ct lk).1.hostCAs = v) := by
  rw [getCertAuthorities_cases]
  by_cases hg : now < cs.lastErrorTime + backoffDuration
  · refine ⟨by simp [hg], by simp [hg, hct], ?_⟩
    intro h
    exact absurd hg (not_lt.mpr h)
  · cases hc : ap.getCertAuthorities ct lk with
    | ok v =>
      refine ⟨by simp [hg, hc, hct], by simp [hg, hc, hct], ?_⟩
      intro _ w hw
      cases hw
      simp [hg, hct]
    | error e =>
      refine ⟨by simp [hg, hc, hct], by simp [hg, hc, hct], ?_⟩
      intro _ w hw
      simp at hw

/-- Witness for C10 at a kind that is neither `UserCA` nor `HostCA`. -/
theorem non_user_kind_uses_host_slot_witness :
    (csC10.GetCertAuthorities apC10 backoffDuration "jwt" false).1.userCAs
        = csC10.userCAs
  ∧ (csC10.GetCertAuthorities apC10 backoffDuration "jwt" false).2.1
      = (csC10.GetCertAuthorities apC10 backoffDuration "jwt" false).1.hostCAs
  ∧ (csC10.lastErrorTime + backoffDuration ≤ backoffDuration →
      ∀ v, apC10.getCertAuthorities "jwt" false = .ok v →
        (csC10.GetCertAuthorities apC10 backoffDuration "jwt" false).1.hostCAs
          = v) :=
  non_user_kind_uses_host_slot csC10 apC10 backoffDuration "jwt" false
    (by decide)

/-- C8: `UpsertNode` and `UpsertProxy` return exactly the upstream's error
value and leave the whole client state — every cache slot and the failure
timestamp — unchanged. -/
theorem upserts_pass_through (cs : CachingAuthClient) (ap : AccessPoint)
    (s : Server) (ttl : Nat) :
    (cs.UpsertNode ap s ttl).2 = ap.upsertNode s ttl
  ∧ (cs.UpsertNode ap s ttl).1 = cs
  ∧ (cs.UpsertProxy ap s ttl).2 = ap.upsertProxy s ttl
  ∧ (cs.UpsertProxy ap s ttl).1 = cs :=
  ⟨rfl, rfl, rfl, rfl⟩

/-- C9: on the three-server fixture, `bufferLabels` produces exactly the
groups os-gentoo, os-coreos, role-database and os-plan9, each group's
hosts in input order and with addresses passed through `trimTrailingPort`. -/
theorem label_grouping_fixture :
    bufferLabels serverFixture =
      [("os-gentoo", ["198.145.29.83"]),
       ("os-coreos", ["11.1.1.1"]),
       ("role-database", ["11.1.1.1", "8.8.4.4"]),
       ("os-plan9", ["8.8.4.4"])] := by
  decide

/-- C1 fails on the code: at time 101, inside the backoff window of the
failure at 100, `GetNodes` is suppressed and returns the nil local slice,
not the cached slot, even though the cached slot holds `[srvC1]` and is
left unchanged and the returned error is nil. -/
theorem getNodes_suppressed_drops_cached_value :
    mapLookup csC1.nodes "default" = some [srvC1]
  ∧ (csC1.GetNodes apC1 101 "default").1 = csC1
  ∧ (csC1.GetNodes apC1 101 "default").2.1 = []
  ∧ (csC1.GetNodes apC1 101 "default").2.1 ≠ [srvC1]
  ∧ (csC1.GetNodes apC1 101 "default").2.2 = none := by
  refine ⟨by decide, by decide, by decide, by decide, by decide⟩

/-- C2 fails on the code: construction against `apC2` succeeds and fills
the other slots from the initial queries, but the namespaces slot of the
constructed client is empty rather than the list `[default]` returned by
the initial `GetNamespaces` query, because the constructor's struct
literal omits the field. -/
theorem constructor_drops_initial_namespaces :
    apC2.getNamespaces = .ok [Namespace.mk "default"]
  ∧ Except.map (fun cs => cs.namespaces) (NewCachingAuthClient apC2) = .ok []
  ∧ Except.map (fun cs => cs.domainName) (NewCachingAuthClient apC2)
      = .ok "example.com"
  ∧ ([] : List Namespace) ≠ [Namespace.mk "default"] := by
  refine ⟨rfl, rfl, rfl, by decide⟩

/-- C3: with the most recent failure recorded at `cs.lastErrorTime`, an
attempt strictly inside the backoff window leaves the state and locals
untouched for every possible upstream operation (so no upstream call is
made), and an attempt at or after the window's end invokes the upstream
operation (observed through `markCalled`). -/
theorem backoff_gate_window (cs : CachingAuthClient) (now : Nat) :
    (cs.lastErrorTime < now → now < cs.lastErrorTime + backoffDuration →
      ∀ {α : Type} (init : α)
        (f : CachingAuthClient × α → (CachingAuthClient × α) × Option Err),
        tryCall cs now init f = (cs, init)
        ∧ (tryCall cs now (init, false) (markCalled f)).2.2 = false)
  ∧ (cs.lastErrorTime + backoffDuration ≤ now →
      ∀ {α : Type} (init : α)
        (f : CachingAuthClient × α → (CachingAuthClient × α) × Option Err),
        (tryCall cs now (init, false) (markCalled f)).2.2 = true) := by
  constructor
  · intro _ h2 α init f
    exact ⟨by simp [tryCall, h2], by simp [tryCall, h2]⟩
  · intro h α init f
    have hlt : ¬ now < cs.lastErrorTime + backoffDuration := not_lt.mpr h
    rcases hf : f (cs, init) with ⟨⟨cs', a⟩, e⟩
    cases e <;> simp [tryCall, markCalled, hlt, hf]

/-- C4: for any closure that (like every closure the source passes to
`try`) does not itself move the failure timestamp: a suppressed attempt
and a successful attempt leave the failure timestamp unchanged, while an
invoked attempt that returns an error sets it to the current time, which
is strictly later than the previous failure time. -/
theorem failure_clock_update {α : Type} (cs : CachingAuthClient) (now : Nat)
    (init : α)
    (f : CachingAuthClient × α → (CachingAuthClient × α) × Option Err)
    (hf : ∀ p, ((f p).1.1).lastErrorTime = p.1.lastErrorTime) :
    (now < cs.lastErrorTime + backoffDuration →
        (tryCall cs now init f).1.lastErrorTime = cs.lastErrorTime)
  ∧ (cs.lastErrorTime + backoffDuration ≤ now →
      ((∃ e, (f (cs, init)).2 = some e) →
          (tryCall cs now init f).1.lastErrorTime = now
          ∧ cs.lastErrorTime < now)
      ∧ ((f (cs, init)).2 = none →
          (tryCall cs now init f).1.lastErrorTime = cs.lastErrorTime)) := by
  constructor
  · intro h
    simp [tryCall, h]
  · intro h
    have hlt : ¬ now < cs.lastErrorTime + backoffDuration := not_lt.mpr h
    have hnow : cs.lastErrorTime < now :=
      lt_of_lt_of_le (Nat.lt_add_of_pos_right (by decide)) h
    constructor
    · rintro ⟨e, he⟩
      rcases hf2 : f (cs, init) with ⟨⟨cs', a⟩, e'⟩
      rw [hf2] at he
      simp only at he
      subst he
      exact ⟨by simp [tryCall, hlt, hf2], hnow⟩
    · intro he
      rcases hf2 : f (cs, init) with ⟨⟨cs', a⟩, e'⟩
      rw [hf2] at he
      simp only at he
      subst he
      have hcs' : cs'.lastErrorTime = cs.lastErrorTime := by
        have := hf (cs, init)
        rw [hf2] at this
        exact this
      simp [tryCall, hlt, hf2, hcs']

/-- Witness for C3: at time 6 the attempt is suppressed; at time
`5 + backoffDuration` the operation is invoked. -/
theorem backoff_gate_window_witness :
    (tryCall csGate 6 (0 : Nat) idOp = (csGate, 0)
      ∧ (tryCall csGate 6 ((0 : Nat), false) (markCalled idOp)).2.2 = false)
  ∧ (tryCall csGate (5 + backoffDuration) ((0 : Nat), false)
        (markCalled idOp)).2.2 = true :=
  ⟨(backoff_gate_window csGate 6).1 (by decide) (by decide) 0 idOp,
   (backoff_gate_window csGate (5 + backoffDuration)).2 (by decide) 0 idOp⟩

/-- Witness for C4: a suppressed attempt at time 7 leaves the failure
timestamp of `csGate` unchanged. -/
theorem failure_clock_update_witness :
    (tryCall csGate 7 (0 : Nat) idOp).1.lastErrorTime = csGate.lastErrorTime :=
  (failure_clock_update csGate 7 0 idOp (fun _ => rfl)).1 (by decide)

/-- C5: whenever the backoff gate permits the attempt and the upstream
call succeeds, the cached slot for the queried category immediately after
the call equals the value the upstream returned, for every read method. -/
theorem successful_refresh_updates_slot (cs : CachingAuthClient)
    (ap : AccessPoint) (now : Nat)
    (hgate : cs.lastErrorTime + backoffDuration ≤ now) :
    (∀ dn, ap.getDomainName = .ok dn →
        (cs.GetDomainName ap now).1.domainName = dn)
  ∧ (∀ nss, ap.getNamespaces = .ok nss →
        (cs.GetNamespaces ap now).1.namespaces = nss)
  ∧ (∀ ns v, ap.getNodes ns = .ok v →
        mapLookup (cs.GetNodes ap now ns).1.nodes ns = some v)
  ∧ (∀ v, ap.getProxies = .ok v → (cs.GetProxies ap now).1.proxies = v)
  ∧ (∀ v, ap.getUsers = .ok v → (cs.GetUsers ap now).1.users = v)
  ∧ (∀ lk v, ap.getCertAuthorities UserCA lk = .ok v →
        (cs.GetCertAuthorities ap now UserCA lk).1.userCAs = v)
  ∧ (∀ ct lk v, ct ≠ UserCA → ap.getCertAuthorities ct lk = .ok v →
        (cs.GetCertAuthorities ap now ct lk).1.hostCAs = v) := by
  have hlt : ¬ now < cs.lastErrorTime + backoffDuration := not_lt.mpr hgate
  refine ⟨?_, ?_, ?_, ?_, ?_, ?_, ?_⟩
  · intro dn h
    simp [CachingAuthClient.GetDomainName, tryCall, hlt, h]
  · intro nss h
    simp [CachingAuthClient.GetNamespaces, tryCall, hlt, h]
  · intro ns v h
    simp [CachingAuthClient.GetNodes, tryCall, hlt, h,
      mapLookup_mapInsert_self]
  · intro v h
    simp [CachingAuthClient.GetProxies, tryCall, hlt, h]
  · intro v h
    simp [CachingAuthClient.GetUsers, tryCall, hlt, h]
  · intro lk v h
    rw [getCertAuthorities_cases]
    simp [hlt, h]
  · intro ct lk v hct h
    rw [getCertAuthorities_cases]
    simp [hlt, h, hct]

/-- Witness for C5: with the gate open at time `5 + backoffDuration`, the
domain-name slot and the nodes slot take the upstream's fresh values. -/
theorem successful_refresh_updates_slot_witness :
    (csGate.GetDomainName apC5 (5 + backoffDuration)).1.domainName
        = "fresh.example.com"
  ∧ mapLookup (csGate.GetNodes apC5 (5 + backoffDuration) "default").1.nodes
        "default" = some [srvC1] :=
  ⟨(successful_refresh_updates_slot csGate apC5 (5 + backoffDuration)
      (by decide)).1 "fresh.example.com" rfl,
   (successful_refresh_updates_slot csGate apC5 (5 + backoffDuration)
      (by decide)).2.2.1 "default" [srvC1] rfl⟩

theorem loadNodes_error_of_mem (ap : AccessPoint) :
    ∀ (l : List Namespace) (acc : List (String × List Server)),
      (∃ ns ∈ l, isErr (ap.getNodes ns.name) = true) →
      ∃ e, loadNodes ap acc l = .error e := by
  intro l
  induction l with
  | nil =>
    intro acc h
    rcases h with ⟨ns, hmem, _⟩
    cases hmem
  | cons hd tl ih =>
    intro acc h
    cases hg : ap.getNodes hd.name with
    | error e => exact ⟨e, by simp [loadNodes, hg]⟩
    | ok v =>
      rcases h with ⟨ns, hmem, herr⟩
      rcases List.mem_cons.mp hmem with rfl | hmem'
      · rw [hg] at herr
        simp [isErr] at herr
      · rcases ih (mapInsert acc hd.name v) ⟨ns, hmem', herr⟩ with ⟨e, he⟩
        exact ⟨e, by simp [loadNodes, hg, he]⟩

/-- C6: construction returns an error whenever any single one of the
initial category loads — domain name, namespaces, the nodes of any listed
namespace, proxies, users, user CAs, host CAs — returns an error. -/
theorem constructor_fails_on_any_load_error (ap : AccessPoint)
    (h : isErr ap.getDomainName = true
       ∨ isErr ap.getNamespaces = true
       ∨ (∃ nss, ap.getNamespaces = .ok nss
            ∧ ∃ ns ∈ nss, isErr (ap.getNodes ns.name) = true)
       ∨ isErr ap.getProxies = true
       ∨ isErr ap.getUsers = true
       ∨ isErr (ap.getCertAuthorities UserCA false) = true
       ∨ isErr (ap.getCertAuthorities HostCA false) = true) :
    ∃ e, NewCachingAuthClient ap = .error e := by
  cases hd : ap.getDomainName with
  | error e => exact ⟨e, by simp [NewCachingAuthClient, hd]⟩
  | ok dn =>
  cases hn : ap.getNamespaces with
  | error e => exact ⟨e, by simp [NewCachingAuthClient, hd, hn]⟩
  | ok nss =>
  cases hl : loadNodes ap [] nss with
  | error e => exact ⟨e, by simp [NewCachingAuthClient, hd, hn, hl]⟩
  | ok nodes =>
  cases hp : ap.getProxies with
  | error e => exact ⟨e, by simp [NewCachingAuthClient, hd, hn, hl, hp]⟩
  | ok proxies =>
  cases hu : ap.getUsers with
  | error e => exact ⟨e, by simp [NewCachingAuthClient, hd, hn, hl, hp, hu]⟩
  | ok users =>
  cases huc : ap.getCertAuthorities UserCA false with
  | error e =>
      exact ⟨e, by simp [NewCachingAuthClient, hd, hn, hl, hp, hu, huc]⟩
  | ok userCAs =>
  cases hhc : ap.getCertAuthorities HostCA false with
  | error e =>
      exact ⟨e, by simp [NewCachingAuthClient, hd, hn, hl, hp, hu, huc, hhc]⟩
  | ok hostCAs =>
  exfalso
  rcases h with h | h | h | h | h | h | h
  · rw [hd] at h
    simp [isErr] at h
  · rw [hn] at h
    simp [isErr] at h
  · rcases h with ⟨nss', hnss', hns⟩
    rw [hn] at hnss'
    cases hnss'
    rcases loadNodes_error_of_mem ap nss [] hns with ⟨e, he⟩
    rw [hl] at he
    cases he
  · rw [hp] at h
    simp [isErr] at h
  · rw [hu] at h
    simp [isErr] at h
  · rw [huc] at h
    simp [isErr] at h
  · rw [hhc] at h
    simp [isErr] at h

/-- Witness for C6: with only the initial user load failing, construction
returns an error. -/
theorem constructor_fails_on_any_load_error_witness :
    ∃ e, NewCachingAuthClient apC6 = .error e :=
  constructor_fails_on_any_load_error apC6
    (Or.inr (Or.inr (Or.inr (Or.inr (Or.inl rfl)))))

end Teleport
